import Mathlib

/-!
Shallow embedding of the multi-agent PR reviewer (multi_agent_reviewer.py).

The program orchestrates five specialist LLM reviewer agents plus a tech-lead
synthesis agent, then aggregates their JSON outputs into a final review report.
The embedding below models the pure aggregation logic of run_review, the
response extractor parse_json_response, and the orchestrator's two-phase event
generator.  LLM outputs and the session state they produce are inputs to the
model; the JSON decoder of the standard library (json.loads) is modelled as an
abstract function from strings to optional JSON objects, since any concrete
decoder is one instance of it.
-/

/-- JSON values, as produced by decoding an agent's response text. -/
inductive JVal where
  | null
  | bool (b : Bool)
  | num (n : Int)
  | str (s : String)
  | arr (elems : List JVal)
  | obj (fields : List (String × JVal))
deriving Repr

/-- A decoded JSON object: the dictionary returned by json.loads when the
decoded text is a JSON object.  Keys are unique in a decoded object. -/
abbrev JDict := List (String × JVal)

/-- Dictionary lookup: the value stored under a key, if present.
Mirrors Python `d[k]` / the success case of `d.get(k)`. -/
def jget (d : JDict) (k : String) : Option JVal :=
  (d.find? (fun p => p.1 == k)).map (fun p => p.2)

/-- Python `d.get(k, v)`: the stored value when the key is present (even when
that value is null), otherwise the default. -/
def jgetD (d : JDict) (k : String) (v : JVal) : JVal :=
  (jget d k).getD v

/-- Python truthiness of a JSON value, as used by `if not pr_accessed` and
similar tests in the aggregator. -/
def truthy : JVal → Bool
  | .null => false
  | .bool b => b
  | .num n => n != 0
  | .str s => s != ""
  | .arr xs => !xs.isEmpty
  | .obj fs => !fs.isEmpty

/-- Python `len` on a JSON value: defined for strings, arrays and objects,
a TypeError (modelled as none) otherwise. -/
def pyLen : JVal → Option Nat
  | .str s => some s.length
  | .arr xs => some xs.length
  | .obj fs => some fs.length
  | _ => none

/-- Python iteration over a JSON value, as performed by `set.update(v)`:
arrays yield their elements, strings yield their one-character substrings,
objects yield their keys; other values are not iterable (TypeError). -/
def pyIter : JVal → Option (List JVal)
  | .arr xs => some xs
  | .str s => some (s.data.map (fun c => .str (String.mk [c])))
  | .obj fs => some (fs.map (fun p => .str p.1))
  | _ => none

/-- Hashable JSON scalars: the only values Python can store in a set.
Arrays and objects (lists/dicts) are unhashable and make set.update raise. -/
inductive JScalar where
  | null
  | bool (b : Bool)
  | num (n : Int)
  | str (s : String)
deriving Repr, DecidableEq

/-- View of a JSON value as a hashable scalar, none for lists and objects. -/
def toScalar : JVal → Option JScalar
  | .null => some .null
  | .bool b => some (.bool b)
  | .num n => some (.num n)
  | .str s => some (.str s)
  | _ => none

/-- The opening-brace character, written by code point. -/
def lbrace : Char := Char.ofNat 123

/-- The closing-brace character, written by code point. -/
def rbrace : Char := Char.ofNat 125

/-- Python `text.find(c)`: index of the first occurrence, or -1. -/
def strFindChar (s : String) (c : Char) : Int :=
  match s.data.findIdx? (fun x => x == c) with
  | some i => (i : Int)
  | none => -1

/-- Python `text.rfind(c)`: index of the last occurrence, or -1. -/
def strRFindChar (s : String) (c : Char) : Int :=
  match s.data.reverse.findIdx? (fun x => x == c) with
  | some i => ((s.data.length - 1 - i : Nat) : Int)
  | none => -1

/-- Python slice `text[a:b]` for the in-range indices produced by find/rfind. -/
def pySlice (s : String) (a b : Int) : String :=
  String.mk ((s.data.drop a.toNat).take (b - a).toNat)

/-- The fallback payload of parse_json_response: summary is the whole original
text, findings are empty and the recommendation is COMMENT. -/
def fallbackPayload (text : String) : JDict :=
  [("summary", .str text), ("findings", .arr []), ("recommendation", .str "COMMENT")]

/-- parse_json_response from multi_agent_reviewer.py: take the substring from
the first opening brace to the last closing brace and decode it; on decode
failure, or when no such substring exists, return the fallback payload.
The decoder `loads` abstracts json.loads restricted to this substring (which
always begins with an opening brace, so a successful decode is an object);
a failing decode (JSONDecodeError) is none. -/
def parse_json_response (loads : String → Option JDict) (text : String) : JDict :=
  let json_start := strFindChar text lbrace
  let json_end := strRFindChar text rbrace + 1
  if json_start ≥ 0 ∧ json_end > json_start then
    match loads (pySlice text json_start json_end) with
    | some d => d
    | none => fallbackPayload text
  else fallbackPayload text

/-- Name and description of one specialist agent, as fixed by the
PRReviewOrchestrator constructor.  The description is the string built by
create_specialist_agent from the role and the first two focus areas; it is
the default for the report's per-specialist role field. -/
structure AgentCfg where
  name : String
  description : String

/-- The five specialist agents created by the PRReviewOrchestrator, in order. -/
def specialistAgents : List AgentCfg :=
  [⟨"ProductOwner",
    "Product Owner - Reviews PRs for PR alignment with linked issues, Acceptance criteria validation"⟩,
   ⟨"SeniorEngineer",
    "Senior Software Engineer - Reviews PRs for Code quality and readability, Architecture and design patterns"⟩,
   ⟨"SecurityEngineer",
    "Security Engineer - Reviews PRs for Security vulnerabilities (OWASP Top 10), Authentication/authorization"⟩,
   ⟨"DevOpsEngineer",
    "DevOps Engineer - Reviews PRs for CI/CD configuration, Infrastructure as Code"⟩,
   ⟨"QAEngineer",
    "QA Engineer - Reviews PRs for Test coverage, Test quality"⟩]

/-- Python str.lower, character by character; the agent names it is applied
to are plain ASCII. -/
def strLower (s : String) : String := String.mk (s.data.map Char.toLower)

/-- The session-state key a specialist writes its raw review text under. -/
def reviewKey (a : AgentCfg) : String := strLower a.name ++ "_review"

/-- One element of the report's specialist_reviews list, as assembled by
run_review from a specialist's extracted payload. -/
structure SpecialistEntry where
  agent : String
  role : JVal
  pr_accessed : JVal
  repository : JVal
  pr_number : JVal
  summary : JVal
  score : JVal
  files_reviewed : JVal
  recommendation : JVal
  rationale : JVal
  findings : JVal
  findings_count : Nat
deriving Repr

/-- Accumulator of the aggregation loop in run_review: the specialist_results
list, the all_files_reviewed set (as a duplicate-free list in insertion
order) and the data_access_issues list. -/
structure AggState where
  entries : List SpecialistEntry
  files : List JScalar
  issues : List String
deriving Repr

/-- The empty accumulator the aggregation loop starts from. -/
def initAgg : AggState := ⟨[], [], []⟩

/-- Adding one element to the set: kept once, in first-insertion position. -/
def setInsert (s : List JScalar) (v : JScalar) : List JScalar :=
  if v ∈ s then s else s ++ [v]

/-- Elementwise view of a list of JSON values as hashable scalars; none as
soon as one element is unhashable. -/
def toScalars : List JVal → Option (List JScalar)
  | [] => some []
  | e :: es => do
      let s ← toScalar e
      let rest ← toScalars es
      some (s :: rest)

/-- Python `all_files_reviewed.update(v)`: iterate v and insert each element
into the set; none models the TypeError raised when v is not iterable or an
element is unhashable. -/
def setUpdate (s : List JScalar) (v : JVal) : Option (List JScalar) := do
  let elems ← pyIter v
  let scalars ← toScalars elems
  some (scalars.foldl setInsert s)

/-- One iteration of the aggregation loop of run_review over a specialist
agent and its raw review text (empty string when the agent produced no
output).  none models an uncaught TypeError, which aborts the whole run. -/
def processAgent (owner repo : String) (pr_number : Int) (loads : String → Option JDict)
    (acc : AggState) (a : AgentCfg) (review_text : String) : Option AggState :=
  if review_text = "" then
    some { acc with issues := acc.issues ++ [a.name ++ ": No review output"] }
  else
    let parsed := parse_json_response loads review_text
    let pr_accessed := jgetD parsed "pr_accessed" (.bool true)
    let files_in_diff := jgetD parsed "files_in_diff" (jgetD parsed "files_reviewed" (.arr []))
    do
    let acc1 ←
      if truthy pr_accessed then
        (setUpdate acc.files files_in_diff).map (fun fs => { acc with files := fs })
      else
        some { acc with issues := acc.issues ++ [a.name ++ ": Could not access PR data"] }
    let fc ← pyLen (jgetD parsed "findings" (.arr []))
    some { acc1 with entries := acc1.entries ++ [{
      agent := a.name
      role := jgetD parsed "agent_role" (.str a.description)
      pr_accessed := pr_accessed
      repository := jgetD parsed "repository" (.str (owner ++ "/" ++ repo))
      pr_number := jgetD parsed "pr_number" (.num pr_number)
      summary := jgetD parsed "summary" (.str "")
      score := jgetD parsed "score" (.num 0)
      files_reviewed := files_in_diff
      recommendation := jgetD parsed "recommendation" (.str "COMMENT")
      rationale := jgetD parsed "rationale" (.str "")
      findings := jgetD parsed "findings" (.arr [])
      findings_count := fc }] }

/-- The total findings count of run_review: the sum over the assembled
specialist entries of the Python length of each entry's findings value. -/
def sumFindings : List SpecialistEntry → Option Nat
  | [] => some 0
  | r :: rs => do
      let n ← pyLen r.findings
      let m ← sumFindings rs
      some (n + m)

/-- The final review report returned by run_review.  The wall-clock timestamp
field is outside the model.  files_reviewed is Python's `list(set)`, whose
listing order is unspecified; it is modelled as a duplicate-free list in
insertion order, and properties about it are stated via membership. -/
structure Report where
  pr : String
  repository : String
  pr_number : Int
  data_access_status : String
  data_access_issues : List String
  files_reviewed : List JScalar
  summary : JVal
  overall_score : JVal
  auto_approve : JVal
  congratulations_message : JVal
  final_decision : JVal
  critical_blockers : JVal
  important_improvements : JVal
  optional_suggestions : JVal
  inline_comments : JVal
  specialist_reviews : List SpecialistEntry
  rationale : JVal
  next_steps : JVal
deriving Repr

/-- The result-building part of run_review from multi_agent_reviewer.py,
starting from the final session state.  `state` is the session state after
the orchestrator ran (raw agent outputs keyed by output key), and
`final_response` is the runner's final response text, the default when the
tech_lead_synthesis key is absent.  none models an uncaught exception. -/
def run_review (owner repo : String) (pr_number : Int) (loads : String → Option JDict)
    (state : String → Option String) (final_response : String) : Option Report := do
  let acc ← specialistAgents.foldlM
    (fun acc a => processAgent owner repo pr_number loads acc a ((state (reviewKey a)).getD ""))
    initAgg
  let tech_lead_parsed := parse_json_response loads ((state "tech_lead_synthesis").getD final_response)
  let data_status :=
    if acc.issues.length = 0 then "all_success"
    else if acc.issues.length = specialistAgents.length then "all_failed"
    else "partial_failure"
  let total_findings ← sumFindings acc.entries
  let auto_approve :=
    if total_findings = 0 ∧ data_status = "all_success"
    then JVal.bool true
    else jgetD tech_lead_parsed "auto_approve" (.bool false)
  let final_decision :=
    if total_findings = 0 ∧ data_status = "all_success"
    then JVal.str "APPROVE"
    else jgetD tech_lead_parsed "final_decision" (.str "COMMENT")
  some { pr := owner ++ "/" ++ repo ++ "#" ++ toString pr_number
         repository := owner ++ "/" ++ repo
         pr_number := pr_number
         data_access_status := data_status
         data_access_issues := acc.issues
         files_reviewed := acc.files
         summary := jgetD tech_lead_parsed "summary" (.str "Review completed")
         overall_score := jgetD tech_lead_parsed "overall_score" (.num 0)
         auto_approve := auto_approve
         congratulations_message := jgetD tech_lead_parsed "congratulations_message"
           (.str "🎉 Great work! This PR looks clean and well-structured. Keep it up! 🚀✨")
         final_decision := final_decision
         critical_blockers := jgetD tech_lead_parsed "critical_blockers" (.arr [])
         important_improvements := jgetD tech_lead_parsed "important_improvements" (.arr [])
         optional_suggestions := jgetD tech_lead_parsed "optional_suggestions" (.arr [])
         inline_comments := jgetD tech_lead_parsed "inline_comments" (.arr [])
         specialist_reviews := acc.entries
         rationale := jgetD tech_lead_parsed "rationale" (.str "")
         next_steps := jgetD tech_lead_parsed "next_steps" (.arr []) }

/-- An event yielded by the orchestrator: either a specialist event from the
parallel review stage, carrying the output key and text it writes to session
state, or a tech-lead event likewise writing under tech_lead_synthesis. -/
inductive RevEvent where
  | specialist (key : String) (text : String)
  | techLead (text : String)
deriving Repr, DecidableEq

/-- The session state: raw text outputs keyed by output key. -/
abbrev SessionState := String → Option String

/-- Applying one event's state delta to the session state. -/
def applyEvent (s : SessionState) : RevEvent → SessionState
  | .specialist key text => fun k => if k == key then some text else s k
  | .techLead text => fun k => if k == "tech_lead_synthesis" then some text else s k

/-- Yielding a stream of events one by one, threading the session state, as an
`async for ... yield` loop does: returns the yielded events and the state
after all of them. -/
def yieldAll (events : List RevEvent) (s : SessionState) : List RevEvent × SessionState :=
  match events with
  | [] => ([], s)
  | e :: rest =>
      let res := yieldAll rest (applyEvent s e)
      (e :: res.1, res.2)

/-- PRReviewOrchestrator._run_async_impl: phase 1 yields every event of the
parallel specialist stage; phase 2 then runs the tech lead, which is a
function of the session state reached after phase 1, and yields its events.
The output is the yielded event sequence and the final state. -/
def runAsyncImpl (parallelEvents : List RevEvent)
    (techLeadRun : SessionState → List RevEvent) (s0 : SessionState) :
    List RevEvent × SessionState :=
  let phase1 := yieldAll parallelEvents s0
  let phase2 := yieldAll (techLeadRun phase1.2) phase1.2
  (phase1.1 ++ phase2.1, phase2.2)

/-- The raw review text run_review reads for an agent from the session state:
empty string when the key is absent. -/
def agentText (state : String → Option String) (a : AgentCfg) : String :=
  (state (reviewKey a)).getD ""

/-- Whether the aggregation loop records a data-access issue for an agent with
the given raw text: yes when the text is empty, or when the extracted
payload's pr_accessed value (default true when the field is absent) is falsy. -/
def hasAccessIssue (loads : String → Option JDict) (text : String) : Bool :=
  text == "" ||
    !truthy (jgetD (parse_json_response loads text) "pr_accessed" (.bool true))

/-- The data_access_issues strings one agent contributes, in order. -/
def agentIssue (loads : String → Option JDict) (name : String) (text : String) : List String :=
  if text = "" then [name ++ ": No review output"]
  else if truthy (jgetD (parse_json_response loads text) "pr_accessed" (.bool true)) then []
  else [name ++ ": Could not access PR data"]

/-- The files value the aggregation loop reads from an extracted payload:
files_in_diff, falling back to files_reviewed, falling back to the empty
list. -/
def filesOf (loads : String → Option JDict) (text : String) : JVal :=
  let parsed := parse_json_response loads text
  jgetD parsed "files_in_diff" (jgetD parsed "files_reviewed" (.arr []))

/-- The pr_accessed value the aggregation loop reads from an extracted
payload: the stored value, default true when the field is absent. -/
def prAccessedOf (loads : String → Option JDict) (text : String) : JVal :=
  jgetD (parse_json_response loads text) "pr_accessed" (.bool true)

/-- The specialist_reviews entry one agent contributes: none when its raw
text is empty (the agent is then only recorded as an issue), and none also
when the findings value has no Python length, in which case the whole run
raises and produces no report at all. -/
def agentEntry (owner repo : String) (pr_number : Int) (loads : String → Option JDict)
    (a : AgentCfg) (text : String) : Option SpecialistEntry :=
  if text = "" then none
  else
    let parsed := parse_json_response loads text
    (pyLen (jgetD parsed "findings" (.arr []))).map (fun fc =>
      { agent := a.name
        role := jgetD parsed "agent_role" (.str a.description)
        pr_accessed := jgetD parsed "pr_accessed" (.bool true)
        repository := jgetD parsed "repository" (.str (owner ++ "/" ++ repo))
        pr_number := jgetD parsed "pr_number" (.num pr_number)
        summary := jgetD parsed "summary" (.str "")
        score := jgetD parsed "score" (.num 0)
        files_reviewed := filesOf loads text
        recommendation := jgetD parsed "recommendation" (.str "COMMENT")
        rationale := jgetD parsed "rationale" (.str "")
        findings := jgetD parsed "findings" (.arr [])
        findings_count := fc })

/-- Whether an agent with the given raw text contributes scalar v to the
files-reviewed set: its text is nonempty, its pr_accessed value is truthy,
and v is among the elements obtained by iterating its files value. -/
def contributesFile (loads : String → Option JDict) (text : String) (v : JScalar) : Prop :=
  text ≠ "" ∧ truthy (prAccessedOf loads text) = true ∧
    ∃ elems, pyIter (filesOf loads text) = some elems ∧
      ∃ e ∈ elems, toScalar e = some v

/-- The data_access_issues list of a run, agent by agent in order. -/
def issuesOfRun (loads : String → Option JDict) (state : String → Option String) :
    List String :=
  specialistAgents.flatMap (fun a => agentIssue loads a.name (agentText state a))

/-- The specialist_reviews list of a run: one entry per agent with nonempty
raw output, in agent order. -/
def entriesOfRun (owner repo : String) (pr_number : Int) (loads : String → Option JDict)
    (state : String → Option String) : List SpecialistEntry :=
  specialistAgents.filterMap (fun a => agentEntry owner repo pr_number loads a (agentText state a))

/-- The data_access_status of a run, as the aggregator derives it from the
number of recorded data-access issues. -/
def statusOfRun (loads : String → Option JDict) (state : String → Option String) : String :=
  if (issuesOfRun loads state).length = 0 then "all_success"
  else if (issuesOfRun loads state).length = specialistAgents.length then "all_failed"
  else "partial_failure"

/-- The extracted Synthesis Payload of a run: the tech-lead text from the
session state (default: the runner's final response) through the extractor. -/
def techLeadParsed (loads : String → Option JDict) (state : String → Option String)
    (final_response : String) : JDict :=
  parse_json_response loads ((state "tech_lead_synthesis").getD final_response)

/-- The total findings count of a run, summed over the specialist entries. -/
def totalFindings (owner repo : String) (pr_number : Int) (loads : String → Option JDict)
    (state : String → Option String) : Nat :=
  ((entriesOfRun owner repo pr_number loads state).map SpecialistEntry.findings_count).sum

/-- A concrete JSON decoder for the example runs below: it recognises the
handful of response texts those runs use and decodes them as json.loads
would; it fails on everything else. -/
def demoLoads : String → Option JDict := fun s =>
  if s = "\x7b\x7d" then some []
  else if s = "\x7b\"pr_accessed\": false\x7d" then some [("pr_accessed", .bool false)]
  else if s = "\x7b\"auto_approve\": true\x7d" then some [("auto_approve", .bool true)]
  else if s = "\x7b\"pr_accessed\": 0\x7d" then some [("pr_accessed", .num 0)]
  else if s = "\x7b\"pr_accessed\": false, \"files_in_diff\": [\"x.py\"]\x7d" then
    some [("pr_accessed", .bool false), ("files_in_diff", .arr [.str "x.py"])]
  else none

/-- A placeholder report, only used as the default of Option.getD below. -/
def emptyReport : Report :=
  { pr := "", repository := "", pr_number := 0, data_access_status := ""
    data_access_issues := [], files_reviewed := [], summary := .null
    overall_score := .null, auto_approve := .null, congratulations_message := .null
    final_decision := .null, critical_blockers := .null, important_improvements := .null
    optional_suggestions := .null, inline_comments := .null, specialist_reviews := []
    rationale := .null, next_steps := .null }

/-- A placeholder specialist entry, only used as the default of headD below. -/
def emptyEntry : SpecialistEntry :=
  { agent := "", role := .null, pr_accessed := .null, repository := .null
    pr_number := .null, summary := .null, score := .null, files_reviewed := .null
    recommendation := .null, rationale := .null, findings := .null, findings_count := 0 }

/-- Session state of a run in which two specialists report pr_accessed false,
three return empty clean payloads, and the synthesis payload carries
auto_approve true. -/
def c1state : String → Option String := fun k =>
  if k = "productowner_review" then some "\x7b\"pr_accessed\": false\x7d"
  else if k = "seniorengineer_review" then some "\x7b\"pr_accessed\": false\x7d"
  else if k = "tech_lead_synthesis" then some "\x7b\"auto_approve\": true\x7d"
  else some "\x7b\x7d"

/-- The report of the run over c1state. -/
def c1report : Report := (run_review "octo" "demo" 7 demoLoads c1state "").getD emptyReport

/-- Session state of a run in which all five specialists return the empty
JSON object (clean payloads, no findings), as does the synthesis role. -/
def c2state : String → Option String := fun _ => some "\x7b\x7d"

/-- The report of the run over c2state. -/
def c2report : Report := (run_review "octo" "demo" 7 demoLoads c2state "").getD emptyReport

/-- Session state of a run in which one specialist's payload has the JSON
number 0 as its pr_accessed value and the other four return empty payloads. -/
def c3state : String → Option String := fun k =>
  if k = "productowner_review" then some "\x7b\"pr_accessed\": 0\x7d"
  else some "\x7b\x7d"

/-- The report of the run over c3state. -/
def c3report : Report := (run_review "octo" "demo" 7 demoLoads c3state "").getD emptyReport

/-- Session state of a run in which one specialist reports pr_accessed false
together with a nonempty files_in_diff list, and the rest return empty
payloads. -/
def c5state : String → Option String := fun k =>
  if k = "productowner_review" then
    some "\x7b\"pr_accessed\": false, \"files_in_diff\": [\"x.py\"]\x7d"
  else some "\x7b\x7d"

/-- The report of the run over c5state. -/
def c5report : Report := (run_review "octo" "demo" 7 demoLoads c5state "").getD emptyReport

/-- Session state of a run whose synthesis output is prose containing no
JSON payload at all, while the specialists return empty payloads. -/
def c6state : String → Option String := fun k =>
  if k = "tech_lead_synthesis" then some "garbage"
  else some "\x7b\x7d"

/-- The report of the run over c6state. -/
def c6report : Report := (run_review "octo" "demo" 7 demoLoads c6state "").getD emptyReport

/-- Session state of a run in which every specialist payload is the empty
JSON object, so no payload carries a score field. -/
def c8state : String → Option String := fun _ => some "\x7b\x7d"

/-- The report of the run over c8state. -/
def c8report : Report := (run_review "octo" "demo" 7 demoLoads c8state "").getD emptyReport

/-- The first specialist entry of the report over c8state. -/
def c8entry : SpecialistEntry := c8report.specialist_reviews.headD emptyEntry

/-- Session state of a run in which every specialist payload is the empty
JSON object, which in particular lacks the pr_accessed field. -/
def c9state : String → Option String := fun _ => some "\x7b\x7d"

/-- The report of the run over c9state. -/
def c9report : Report := (run_review "octo" "demo" 7 demoLoads c9state "").getD emptyReport

/-- The first specialist agent configuration, used as a concrete agent. -/
def c9agent : AgentCfg :=
  ⟨"ProductOwner",
   "Product Owner - Reviews PRs for PR alignment with linked issues, Acceptance criteria validation"⟩

/-- Session state of a run in which one specialist produced no output at all
and the other four returned empty payloads. -/
def c10state : String → Option String := fun k =>
  if k = "qaengineer_review" then none
  else some "\x7b\x7d"

/-- The report of the run over c10state. -/
def c10report : Report := (run_review "octo" "demo" 7 demoLoads c10state "").getD emptyReport

theorem mem_setInsert (s : List JScalar) (v w : JScalar) :
    w ∈ setInsert s v ↔ w ∈ s ∨ w = v := by
  unfold setInsert
  by_cases hv : v ∈ s
  · simp only [if_pos hv]
    constructor
    · exact fun h => Or.inl h
    · rintro (h | rfl)
      · exact h
      · exact hv
  · simp [if_neg hv]

theorem nodup_setInsert (s : List JScalar) (v : JScalar) (h : s.Nodup) :
    (setInsert s v).Nodup := by
  unfold setInsert
  by_cases hv : v ∈ s
  · simpa [if_pos hv]
  · simp [if_neg hv, List.nodup_append, h, hv]

theorem mem_foldl_setInsert (scalars : List JScalar) (s : List JScalar) (w : JScalar) :
    w ∈ scalars.foldl setInsert s ↔ w ∈ s ∨ w ∈ scalars := by
  induction scalars generalizing s with
  | nil => simp
  | cons x xs ih =>
      simp only [List.foldl_cons, ih, mem_setInsert, List.mem_cons]
      tauto

theorem nodup_foldl_setInsert (scalars : List JScalar) (s : List JScalar) (h : s.Nodup) :
    (scalars.foldl setInsert s).Nodup := by
  induction scalars generalizing s with
  | nil => simpa
  | cons x xs ih => exact ih _ (nodup_setInsert _ _ h)

theorem toScalars_mem (elems : List JVal) (scalars : List JScalar)
    (h : toScalars elems = some scalars) (w : JScalar) :
    w ∈ scalars ↔ ∃ e ∈ elems, toScalar e = some w := by
  induction elems generalizing scalars with
  | nil =>
      simp only [toScalars, Option.some.injEq] at h
      subst h
      simp
  | cons x xs ih =>
      simp only [toScalars] at h
      cases hx : toScalar x with
      | none => simp [hx] at h
      | some b =>
          cases hxs : toScalars xs with
          | none => simp [hx, hxs] at h
          | some bs =>
              simp only [hx, hxs, Option.bind_eq_bind, Option.some_bind,
                Option.some.injEq] at h
              subst h
              simp only [List.mem_cons, ih bs hxs]
              constructor
              · rintro (rfl | ⟨e, he, hsc⟩)
                · exact ⟨x, by simp, hx⟩
                · exact ⟨e, by simp [he], hsc⟩
              · rintro ⟨e, he, hsc⟩
                rcases he with rfl | he'
                · left
                  rw [hx] at hsc
                  exact (Option.some.inj hsc).symm
                · exact Or.inr ⟨e, he', hsc⟩

theorem setUpdate_spec (s s' : List JScalar) (v : JVal) (h : setUpdate s v = some s') :
    (∀ w, w ∈ s' ↔ w ∈ s ∨ ∃ elems, pyIter v = some elems ∧ ∃ e ∈ elems, toScalar e = some w) ∧
    (s.Nodup → s'.Nodup) := by
  unfold setUpdate at h
  cases hit : pyIter v with
  | none => simp [hit] at h
  | some elems =>
      rw [hit] at h
      cases hsc : toScalars elems with
      | none => simp [hsc] at h
      | some scalars =>
          simp only [hsc, Option.bind_eq_bind, Option.some_bind, Option.some.injEq] at h
          subst h
          refine ⟨fun w => ?_, fun hn => nodup_foldl_setInsert _ _ hn⟩
          rw [mem_foldl_setInsert]
          constructor
          · rintro (hw | hw)
            · exact Or.inl hw
            · exact Or.inr ⟨elems, rfl, (toScalars_mem elems scalars hsc w).mp hw⟩
          · rintro (hw | ⟨elems', helems', he⟩)
            · exact Or.inl hw
            · cases helems'
              exact Or.inr ((toScalars_mem elems scalars hsc w).mpr he)

theorem processAgent_spec (owner repo : String) (pr_number : Int)
    (loads : String → Option JDict) (acc acc' : AggState) (a : AgentCfg) (t : String)
    (h : processAgent owner repo pr_number loads acc a t = some acc') :
    acc'.issues = acc.issues ++ agentIssue loads a.name t ∧
    acc'.entries = acc.entries ++ (agentEntry owner repo pr_number loads a t).toList ∧
    (∀ v, v ∈ acc'.files ↔ v ∈ acc.files ∨ contributesFile loads t v) ∧
    (acc.files.Nodup → acc'.files.Nodup) ∧
    (t ≠ "" → (agentEntry owner repo pr_number loads a t).isSome) := by
  by_cases ht : t = ""
  · subst ht
    simp only [processAgent, if_pos rfl, if_true, Option.some.injEq] at h
    subst h
    exact ⟨by simp [agentIssue], by simp [agentEntry], fun v => by simp [contributesFile],
      fun hn => hn, fun h' => absurd rfl h'⟩
  · simp only [processAgent, if_neg ht] at h
    cases htr : truthy (jgetD (parse_json_response loads t) "pr_accessed" (JVal.bool true)) with
    | false =>
        rw [htr] at h
        simp only [Bool.false_eq_true, if_false, Option.bind_eq_bind, Option.some_bind] at h
        cases hfc : pyLen (jgetD (parse_json_response loads t) "findings" (JVal.arr [])) with
        | none => rw [hfc] at h; simp at h
        | some fc =>
            rw [hfc] at h
            simp only [Option.some_bind, Option.some.injEq] at h
            subst h
            refine ⟨?_, ?_, fun v => ?_, fun hn => hn,
              fun _ => by simp [agentEntry, if_neg ht, hfc]⟩
            · simp [agentIssue, if_neg ht, htr]
            · simp [agentEntry, if_neg ht, hfc, filesOf]
            · constructor
              · exact fun hv => Or.inl hv
              · rintro (hv | ⟨_, htr', _⟩)
                · exact hv
                · rw [prAccessedOf] at htr'
                  rw [htr] at htr'
                  cases htr'
    | true =>
        rw [htr] at h
        simp only [if_true, Option.bind_eq_bind] at h
        cases hup : setUpdate acc.files
            (jgetD (parse_json_response loads t) "files_in_diff"
              (jgetD (parse_json_response loads t) "files_reviewed" (JVal.arr []))) with
        | none => rw [hup] at h; simp at h
        | some fs =>
            rw [hup] at h
            simp only [Option.map_some', Option.some_bind] at h
            cases hfc : pyLen (jgetD (parse_json_response loads t) "findings" (JVal.arr [])) with
            | none => rw [hfc] at h; simp at h
            | some fc =>
                rw [hfc] at h
                simp only [Option.some_bind, Option.some.injEq] at h
                subst h
                obtain ⟨hmem, hnd⟩ := setUpdate_spec _ _ _ hup
                refine ⟨?_, ?_, fun v => ?_, hnd,
                  fun _ => by simp [agentEntry, if_neg ht, hfc]⟩
                · simp [agentIssue, if_neg ht, htr]
                · simp [agentEntry, if_neg ht, hfc, filesOf]
                · rw [show ({ entries := _, files := fs, issues := _ } : AggState).files = fs from rfl,
                    hmem v]
                  constructor
                  · rintro (hv | hv)
                    · exact Or.inl hv
                    · exact Or.inr ⟨ht, by rw [prAccessedOf]; exact htr, hv⟩
                  · rintro (hv | ⟨_, _, hv⟩)
                    · exact Or.inl hv
                    · refine Or.inr ?_
                      rw [filesOf] at hv
                      exact hv

theorem runAgents_spec (owner repo : String) (pr_number : Int)
    (loads : String → Option JDict) (state : String → Option String)
    (as : List AgentCfg) (acc0 acc : AggState)
    (h : as.foldlM
      (fun acc a => processAgent owner repo pr_number loads acc a ((state (reviewKey a)).getD ""))
      acc0 = some acc) :
    acc.issues = acc0.issues ++ as.flatMap (fun a => agentIssue loads a.name (agentText state a)) ∧
    acc.entries = acc0.entries ++
      as.filterMap (fun a => agentEntry owner repo pr_number loads a (agentText state a)) ∧
    (∀ v, v ∈ acc.files ↔ v ∈ acc0.files ∨ ∃ a ∈ as, contributesFile loads (agentText state a) v) ∧
    (acc0.files.Nodup → acc.files.Nodup) ∧
    (∀ a ∈ as, agentText state a ≠ "" →
      (agentEntry owner repo pr_number loads a (agentText state a)).isSome) := by
  induction as generalizing acc0 with
  | nil =>
      simp only [List.foldlM_nil] at h
      cases h
      simp
  | cons a as ih =>
      rw [List.foldlM_cons] at h
      cases hp : processAgent owner repo pr_number loads acc0 a ((state (reviewKey a)).getD "") with
      | none => rw [hp] at h; simp at h
      | some acc1 =>
          rw [hp] at h
          simp only [Option.bind_eq_bind, Option.some_bind] at h
          obtain ⟨hi, he, hf, hn, hsome⟩ := processAgent_spec owner repo pr_number loads acc0 acc1 a _ hp
          obtain ⟨hi2, he2, hf2, hn2, hsome2⟩ := ih acc1 h
          refine ⟨?_, ?_, fun v => ?_, fun h0 => hn2 (hn h0), fun b hb hbt => ?_⟩
          · rw [hi2, hi]
            simp only [agentText, List.flatMap_cons, List.append_assoc]
          · rw [he2, he, List.filterMap_cons]
            simp only [agentText]
            cases hae : agentEntry owner repo pr_number loads a ((state (reviewKey a)).getD "") <;>
              simp [hae, List.append_assoc]
          · rw [hf2 v, hf v]
            simp only [List.mem_cons, agentText]
            constructor
            · rintro ((hv | hv) | ⟨b, hb, hv⟩)
              · exact Or.inl hv
              · exact Or.inr ⟨a, Or.inl rfl, hv⟩
              · exact Or.inr ⟨b, Or.inr hb, hv⟩
            · rintro (hv | ⟨b, (rfl | hb), hv⟩)
              · exact Or.inl (Or.inl hv)
              · exact Or.inl (Or.inr hv)
              · exact Or.inr ⟨b, hb, hv⟩
          · rcases List.mem_cons.mp hb with rfl | hb'
            · simp only [agentText] at hbt ⊢
              exact hsome hbt
            · exact hsome2 b hb' hbt

theorem agentEntry_findings (owner repo : String) (pr_number : Int)
    (loads : String → Option JDict) (a : AgentCfg) (t : String) (e : SpecialistEntry)
    (h : agentEntry owner repo pr_number loads a t = some e) :
    pyLen e.findings = some e.findings_count := by
  unfold agentEntry at h
  by_cases ht : t = ""
  · simp [ht] at h
  · rw [if_neg ht] at h
    cases hfc : pyLen (jgetD (parse_json_response loads t) "findings" (JVal.arr [])) with
    | none => simp [hfc] at h
    | some fc =>
        simp only [hfc, Option.map_some', Option.some.injEq] at h
        subst h
        exact hfc

theorem sumFindings_eq (l : List SpecialistEntry)
    (hl : ∀ e ∈ l, pyLen e.findings = some e.findings_count) :
    sumFindings l = some ((l.map SpecialistEntry.findings_count).sum) := by
  induction l with
  | nil => rfl
  | cons e es ih =>
      have he : pyLen e.findings = some e.findings_count := hl e (by simp)
      have hes := ih (fun x hx => hl x (by simp [hx]))
      simp [sumFindings, he, hes]

theorem run_review_spec (owner repo : String) (pr_number : Int)
    (loads : String → Option JDict) (state : String → Option String)
    (final_response : String) (r : Report)
    (h : run_review owner repo pr_number loads state final_response = some r) :
    r.specialist_reviews = entriesOfRun owner repo pr_number loads state ∧
    r.data_access_issues = issuesOfRun loads state ∧
    r.data_access_status = statusOfRun loads state ∧
    (∀ v, v ∈ r.files_reviewed ↔
      ∃ a ∈ specialistAgents, contributesFile loads (agentText state a) v) ∧
    r.files_reviewed.Nodup ∧
    r.auto_approve =
      (if totalFindings owner repo pr_number loads state = 0 ∧
          statusOfRun loads state = "all_success"
       then JVal.bool true
       else jgetD (techLeadParsed loads state final_response) "auto_approve" (.bool false)) ∧
    r.final_decision =
      (if totalFindings owner repo pr_number loads state = 0 ∧
          statusOfRun loads state = "all_success"
       then JVal.str "APPROVE"
       else jgetD (techLeadParsed loads state final_response) "final_decision" (.str "COMMENT")) ∧
    r.summary = jgetD (techLeadParsed loads state final_response) "summary" (.str "Review completed") ∧
    r.overall_score = jgetD (techLeadParsed loads state final_response) "overall_score" (.num 0) ∧
    r.congratulations_message = jgetD (techLeadParsed loads state final_response)
      "congratulations_message"
      (.str "🎉 Great work! This PR looks clean and well-structured. Keep it up! 🚀✨") ∧
    r.critical_blockers = jgetD (techLeadParsed loads state final_response) "critical_blockers" (.arr []) ∧
    r.important_improvements = jgetD (techLeadParsed loads state final_response) "important_improvements" (.arr []) ∧
    r.optional_suggestions = jgetD (techLeadParsed loads state final_response) "optional_suggestions" (.arr []) ∧
    r.inline_comments = jgetD (techLeadParsed loads state final_response) "inline_comments" (.arr []) ∧
    r.rationale = jgetD (techLeadParsed loads state final_response) "rationale" (.str "") ∧
    r.next_steps = jgetD (techLeadParsed loads state final_response) "next_steps" (.arr []) ∧
    (∀ a ∈ specialistAgents, agentText state a ≠ "" →
      (agentEntry owner repo pr_number loads a (agentText state a)).isSome) := by
  unfold run_review at h
  cases hacc : specialistAgents.foldlM
      (fun acc a => processAgent owner repo pr_number loads acc a ((state (reviewKey a)).getD ""))
      initAgg with
  | none => rw [hacc] at h; simp at h
  | some acc =>
      rw [hacc] at h
      simp only [Option.bind_eq_bind, Option.some_bind] at h
      obtain ⟨hi, he, hf, hn, hsome⟩ := runAgents_spec owner repo pr_number loads state _ _ _ hacc
      simp only [initAgg, List.nil_append] at hi he hf
      have hinv : ∀ e ∈ acc.entries, pyLen e.findings = some e.findings_count := by
        intro e hee
        rw [he] at hee
        rcases List.mem_filterMap.mp hee with ⟨a, _, hae⟩
        exact agentEntry_findings owner repo pr_number loads a _ e hae
      have hsum := sumFindings_eq acc.entries hinv
      rw [hsum] at h
      simp only [Option.some_bind, Option.some.injEq] at h
      subst h
      have htf : (acc.entries.map SpecialistEntry.findings_count).sum =
          totalFindings owner repo pr_number loads state := by
        rw [totalFindings, he, entriesOfRun]
      have hds : (if acc.issues.length = 0 then "all_success"
          else if acc.issues.length = specialistAgents.length then "all_failed"
          else "partial_failure") = statusOfRun loads state := by
        rw [statusOfRun, issuesOfRun, hi]
      refine ⟨he.trans rfl, hi.trans rfl, hds, ?_, ?_, ?_, ?_, rfl, rfl, rfl, rfl, rfl, rfl, rfl, rfl, rfl, hsome⟩
      · intro v
        have := hf v
        simp only [List.not_mem_nil, false_or] at this
        exact this
      · exact hn (by simp [initAgg])
      · rw [htf, hds, techLeadParsed]
      · rw [htf, hds, techLeadParsed]

theorem agentIssue_length (loads : String → Option JDict) (name t : String) :
    (agentIssue loads name t).length = if hasAccessIssue loads t then 1 else 0 := by
  unfold agentIssue hasAccessIssue
  by_cases ht : t = ""
  · subst ht
    simp
  · rw [if_neg ht]
    have hbeq : (t == "") = false := by simp [ht]
    rw [hbeq]
    simp only [Bool.false_or]
    cases htr : truthy (jgetD (parse_json_response loads t) "pr_accessed" (JVal.bool true)) <;>
      simp [htr]

theorem flatMap_agentIssue_length (loads : String → Option JDict)
    (state : String → Option String) (as : List AgentCfg) :
    (as.flatMap (fun a => agentIssue loads a.name (agentText state a))).length =
      as.countP (fun a => hasAccessIssue loads (agentText state a)) := by
  induction as with
  | nil => rfl
  | cons a as ih =>
      simp only [List.flatMap_cons, List.length_append, ih, List.countP_cons, agentIssue_length]
      cases hA : hasAccessIssue loads (agentText state a)
      · simp [hA]
      · simp [hA]
        omega

theorem filterMap_agentEntry_length (owner repo : String) (pr_number : Int)
    (loads : String → Option JDict) (state : String → Option String) (as : List AgentCfg)
    (hs : ∀ a ∈ as, agentText state a ≠ "" →
      (agentEntry owner repo pr_number loads a (agentText state a)).isSome) :
    (as.filterMap (fun a => agentEntry owner repo pr_number loads a (agentText state a))).length =
      as.countP (fun a => !(agentText state a == "")) := by
  induction as with
  | nil => rfl
  | cons a as ih =>
      rw [List.filterMap_cons, List.countP_cons]
      have ihh := ih (fun b hb => hs b (List.mem_cons_of_mem a hb))
      by_cases ht : agentText state a = ""
      · have hz : agentEntry owner repo pr_number loads a (agentText state a) = none := by
          rw [ht]
          simp [agentEntry]
        rw [hz]
        simp [ihh, ht]
      · obtain ⟨e, he⟩ := Option.isSome_iff_exists.mp (hs a (List.mem_cons_self a as) ht)
        rw [he]
        simp [ihh, ht]

theorem agentEntry_some (owner repo : String) (pr_number : Int)
    (loads : String → Option JDict) (a : AgentCfg) (t : String) (e : SpecialistEntry)
    (h : agentEntry owner repo pr_number loads a t = some e) :
    t ≠ "" ∧ e.agent = a.name ∧
    e.pr_accessed = jgetD (parse_json_response loads t) "pr_accessed" (.bool true) ∧
    e.score = jgetD (parse_json_response loads t) "score" (.num 0) ∧
    e.findings = jgetD (parse_json_response loads t) "findings" (.arr []) ∧
    e.files_reviewed = filesOf loads t := by
  unfold agentEntry at h
  by_cases ht : t = ""
  · simp [ht] at h
  · rw [if_neg ht] at h
    cases hfc : pyLen (jgetD (parse_json_response loads t) "findings" (JVal.arr [])) with
    | none => simp [hfc] at h
    | some fc =>
        simp only [hfc, Option.map_some', Option.some.injEq] at h
        subst h
        exact ⟨ht, rfl, rfl, rfl, rfl, rfl⟩

theorem specialistNames_nodup : (specialistAgents.map AgentCfg.name).Nodup := by decide

theorem yieldAll_spec (events : List RevEvent) (s : SessionState) :
    yieldAll events s = (events, events.foldl applyEvent s) := by
  induction events generalizing s with
  | nil => rfl
  | cons e rest ih => simp [yieldAll, ih, List.foldl_cons]

/-- C4: parse_json_response is total in the model and, whenever the substring
from the first opening brace to the last closing brace fails to decode as
JSON, or no such substring exists, it returns exactly the payload whose
summary is the original text, whose findings are empty, and whose
recommendation is COMMENT.  Resource-exhaustion exceptions of the concrete
decoder (interpreter recursion limits on deeply nested input) are outside
the model. -/
theorem c4_extractor_total_fallback (loads : String → Option JDict) (text : String)
    (h : ¬(strFindChar text lbrace ≥ 0 ∧ strRFindChar text rbrace + 1 > strFindChar text lbrace) ∨
      loads (pySlice text (strFindChar text lbrace) (strRFindChar text rbrace + 1)) = none) :
    parse_json_response loads text =
      [("summary", JVal.str text), ("findings", JVal.arr []),
       ("recommendation", JVal.str "COMMENT")] := by
  simp only [parse_json_response]
  rcases h with h | h
  · rw [if_neg h]
    rfl
  · by_cases hc : strFindChar text lbrace ≥ 0 ∧
        strRFindChar text rbrace + 1 > strFindChar text lbrace
    · rw [if_pos hc, h]
      rfl
    · rw [if_neg hc]
      rfl

/-- Witness for C4 at a concrete input with no JSON payload. -/
theorem c4_extractor_total_fallback_witness :
    parse_json_response (fun _ => none) "specialist narrative output" =
      [("summary", JVal.str "specialist narrative output"), ("findings", JVal.arr []),
       ("recommendation", JVal.str "COMMENT")] :=
  c4_extractor_total_fallback (fun _ => none) "specialist narrative output" (Or.inr rfl)

/-- C2: whenever the extracted specialist payloads carry zero findings in
total and the data-access status is all_success, the final report has
auto_approve true and final_decision APPROVE, regardless of what the
extracted synthesis payload said. -/
theorem c2_zero_findings_override (owner repo : String) (pr_number : Int)
    (loads : String → Option JDict) (state : String → Option String)
    (final_response : String) (r : Report)
    (h : run_review owner repo pr_number loads state final_response = some r)
    (hf : (r.specialist_reviews.map SpecialistEntry.findings_count).sum = 0)
    (hs : r.data_access_status = "all_success") :
    r.auto_approve = JVal.bool true ∧ r.final_decision = JVal.str "APPROVE" := by
  obtain ⟨he, -, hds, -, -, ha, hfd, -⟩ :=
    run_review_spec owner repo pr_number loads state final_response r h
  have hcond : totalFindings owner repo pr_number loads state = 0 ∧
      statusOfRun loads state = "all_success" := by
    refine ⟨?_, ?_⟩
    · rw [totalFindings, ← he]
      exact hf
    · rw [← hds]
      exact hs
  constructor
  · rw [ha, if_pos hcond]
  · rw [hfd, if_pos hcond]

/-- Witness for C2: the all-clean run over c2state. -/
theorem c2_zero_findings_override_witness :
    run_review "octo" "demo" 7 demoLoads c2state "" = some c2report ∧
    (c2report.specialist_reviews.map SpecialistEntry.findings_count).sum = 0 ∧
    c2report.data_access_status = "all_success" ∧
    (c2report.auto_approve = JVal.bool true ∧ c2report.final_decision = JVal.str "APPROVE") :=
  ⟨rfl, rfl, rfl,
    c2_zero_findings_override "octo" "demo" 7 demoLoads c2state "" c2report rfl rfl rfl⟩

/-- C7: the orchestrator is a strict fork-join barrier: its yielded event
sequence is exactly the parallel stage's events followed by the tech-lead
events, the first block of the output is the parallel stage verbatim, and
the tech-lead stage is computed only from the session state reached after
every parallel event has been applied, never from a partial state. -/
theorem c7_synthesis_after_barrier (parallelEvents : List RevEvent)
    (techLeadRun : SessionState → List RevEvent) (s0 : SessionState) :
    (runAsyncImpl parallelEvents techLeadRun s0).1 =
      parallelEvents ++ techLeadRun (parallelEvents.foldl applyEvent s0) ∧
    (runAsyncImpl parallelEvents techLeadRun s0).1.take parallelEvents.length =
      parallelEvents ∧
    (runAsyncImpl parallelEvents techLeadRun s0).1.drop parallelEvents.length =
      techLeadRun (parallelEvents.foldl applyEvent s0) := by
  have h1 : (runAsyncImpl parallelEvents techLeadRun s0).1 =
      parallelEvents ++ techLeadRun (parallelEvents.foldl applyEvent s0) := by
    simp only [runAsyncImpl, yieldAll_spec]
  exact ⟨h1, by rw [h1, List.take_left], by rw [h1, List.drop_left]⟩

/-- C1 counterexample: a run in which two specialists report pr_accessed
false and three succeed with no findings (so the total findings count is
zero and the status is partial_failure), yet the final report carries
auto_approve true, because the synthesis payload said true and the
aggregator's override never forces auto_approve back to false. -/
theorem c1_counterexample :
    run_review "octo" "demo" 7 demoLoads c1state "" = some c1report ∧
    c1report.data_access_status = "partial_failure" ∧
    (c1report.specialist_reviews.map SpecialistEntry.findings_count).sum = 0 ∧
    c1report.auto_approve = JVal.bool true :=
  ⟨rfl, rfl, rfl, rfl⟩

/-- C1 amended: the override is one-directional.  If the final report's
auto_approve is the JSON value true, then either the zero-findings and
all_success override fired, or the extracted synthesis payload itself
carried auto_approve true; the aggregator never overrides a truthy
synthesis value downward when data access partially failed. -/
theorem c1_auto_approve_sources (owner repo : String) (pr_number : Int)
    (loads : String → Option JDict) (state : String → Option String)
    (final_response : String) (r : Report)
    (h : run_review owner repo pr_number loads state final_response = some r)
    (ha : r.auto_approve = JVal.bool true) :
    ((r.specialist_reviews.map SpecialistEntry.findings_count).sum = 0 ∧
      r.data_access_status = "all_success") ∨
    jgetD (techLeadParsed loads state final_response) "auto_approve" (.bool false) =
      JVal.bool true := by
  obtain ⟨he, -, hds, -, -, hauto, -⟩ :=
    run_review_spec owner repo pr_number loads state final_response r h
  rw [hauto] at ha
  by_cases hc : totalFindings owner repo pr_number loads state = 0 ∧
      statusOfRun loads state = "all_success"
  · left
    constructor
    · rw [he, ← totalFindings]
      exact hc.1
    · rw [hds]
      exact hc.2
  · right
    rw [if_neg hc] at ha
    exact ha

/-- Witness for the amended C1, at the run over c1state, where the synthesis
payload is the source of the truthy auto_approve. -/
theorem c1_auto_approve_sources_witness :
    ((c1report.specialist_reviews.map SpecialistEntry.findings_count).sum = 0 ∧
      c1report.data_access_status = "all_success") ∨
    jgetD (techLeadParsed demoLoads c1state "") "auto_approve" (.bool false) =
      JVal.bool true :=
  c1_auto_approve_sources "octo" "demo" 7 demoLoads c1state "" c1report rfl rfl

/-- C8 counterexample: a run whose specialist payloads carry no score field
at all; every entry included in the final report then has score 0, which is
not an integer between 1 and 10. -/
theorem c8_counterexample :
    run_review "octo" "demo" 7 demoLoads c8state "" = some c8report ∧
    c8report.specialist_reviews.map SpecialistEntry.score =
      [JVal.num 0, JVal.num 0, JVal.num 0, JVal.num 0, JVal.num 0] ∧
    ¬(1 ≤ (0 : Int) ∧ (0 : Int) ≤ 10) :=
  ⟨rfl, rfl, by omega⟩

/-- C8 amended: the aggregator does not validate scores.  Every entry of the
report's specialist_reviews list carries exactly the score value stored in
its agent's extracted payload, defaulting to 0 when the field is absent; no
range constraint between 1 and 10 is enforced. -/
theorem c8_score_passthrough (owner repo : String) (pr_number : Int)
    (loads : String → Option JDict) (state : String → Option String)
    (final_response : String) (r : Report) (e : SpecialistEntry)
    (h : run_review owner repo pr_number loads state final_response = some r)
    (he : e ∈ r.specialist_reviews) :
    ∃ a ∈ specialistAgents, e.agent = a.name ∧ agentText state a ≠ "" ∧
      e.score = jgetD (parse_json_response loads (agentText state a)) "score" (JVal.num 0) := by
  obtain ⟨hentries, -⟩ :=
    run_review_spec owner repo pr_number loads state final_response r h
  rw [hentries, entriesOfRun] at he
  rcases List.mem_filterMap.mp he with ⟨a, ha, hae⟩
  obtain ⟨ht, hagent, -, hscore, -⟩ :=
    agentEntry_some owner repo pr_number loads a _ e hae
  exact ⟨a, ha, hagent, ht, hscore⟩

/-- Witness for the amended C8: the first entry of the run over c8state. -/
theorem c8_score_passthrough_witness :
    c8entry ∈ c8report.specialist_reviews ∧
    ∃ a ∈ specialistAgents, c8entry.agent = a.name ∧ agentText c8state a ≠ "" ∧
      c8entry.score = jgetD (parse_json_response demoLoads (agentText c8state a))
        "score" (JVal.num 0) :=
  ⟨List.Mem.head _,
   c8_score_passthrough "octo" "demo" 7 demoLoads c8state "" c8report c8entry rfl
     (List.Mem.head _)⟩

/-- C5 counterexample: a specialist that reports pr_accessed false together
with the nonempty reported file list x.py; the aggregator only adds a
specialist's files when its pr_accessed value is truthy, so x.py never
reaches the report's files_reviewed union, which stays empty even though a
specialist reported that file. -/
theorem c5_counterexample :
    run_review "octo" "demo" 7 demoLoads c5state "" = some c5report ∧
    c5report.specialist_reviews.map SpecialistEntry.files_reviewed =
      [JVal.arr [JVal.str "x.py"], JVal.arr [], JVal.arr [], JVal.arr [], JVal.arr []] ∧
    c5report.files_reviewed = [] :=
  ⟨rfl, rfl, rfl⟩

/-- C5 amended: the report's files_reviewed list is duplicate-free and is the
set union of the file lists of exactly those specialists that produced
output and whose pr_accessed value is truthy; files reported by a
specialist with a falsy pr_accessed value are not included. -/
theorem c5_files_union (owner repo : String) (pr_number : Int)
    (loads : String → Option JDict) (state : String → Option String)
    (final_response : String) (r : Report)
    (h : run_review owner repo pr_number loads state final_response = some r) :
    r.files_reviewed.Nodup ∧
    (∀ v, v ∈ r.files_reviewed ↔
      ∃ a ∈ specialistAgents, agentText state a ≠ "" ∧
        truthy (prAccessedOf loads (agentText state a)) = true ∧
        ∃ elems, pyIter (filesOf loads (agentText state a)) = some elems ∧
          ∃ e ∈ elems, toScalar e = some v) := by
  obtain ⟨-, -, -, hmem, hnd, -⟩ :=
    run_review_spec owner repo pr_number loads state final_response r h
  refine ⟨hnd, fun v => ?_⟩
  rw [hmem v]
  simp only [contributesFile]

/-- Witness for the amended C5, at the run over c5state. -/
theorem c5_files_union_witness :
    c5report.files_reviewed.Nodup ∧
    (∀ v, v ∈ c5report.files_reviewed ↔
      ∃ a ∈ specialistAgents, agentText c5state a ≠ "" ∧
        truthy (prAccessedOf demoLoads (agentText c5state a)) = true ∧
        ∃ elems, pyIter (filesOf demoLoads (agentText c5state a)) = some elems ∧
          ∃ e ∈ elems, toScalar e = some v) :=
  c5_files_union "octo" "demo" 7 demoLoads c5state "" c5report rfl

/-- C6 counterexample: when the synthesis output is prose with no payload,
the report's summary is that prose verbatim (carried by the extractor's
fallback payload), not the documented default string Review completed, so
not every synthesis-derived field falls back to a documented fixed
default. -/
theorem c6_counterexample :
    run_review "octo" "demo" 7 demoLoads c6state "" = some c6report ∧
    c6report.summary = JVal.str "garbage" ∧
    c6report.summary ≠ JVal.str "Review completed" :=
  ⟨rfl, rfl, by intro hx; injection hx with hx'; exact absurd hx' (by decide)⟩

/-- C6 amended: when the synthesis text has no parseable payload (the
extractor returned its fallback), the run still produces a full report
provided the specialist aggregation itself completes; every
synthesis-derived field except summary takes its documented default, while
summary carries the raw synthesis text, and auto_approve with
final_decision are either the override pair or their defaults false and
COMMENT. -/
theorem c6_synthesis_defaults (owner repo : String) (pr_number : Int)
    (loads : String → Option JDict) (state : String → Option String)
    (final_response : String) (r : Report)
    (h : run_review owner repo pr_number loads state final_response = some r)
    (hfb : parse_json_response loads ((state "tech_lead_synthesis").getD final_response) =
      fallbackPayload ((state "tech_lead_synthesis").getD final_response)) :
    r.summary = JVal.str ((state "tech_lead_synthesis").getD final_response) ∧
    r.overall_score = JVal.num 0 ∧
    r.congratulations_message =
      JVal.str "🎉 Great work! This PR looks clean and well-structured. Keep it up! 🚀✨" ∧
    r.critical_blockers = JVal.arr [] ∧
    r.important_improvements = JVal.arr [] ∧
    r.optional_suggestions = JVal.arr [] ∧
    r.inline_comments = JVal.arr [] ∧
    r.rationale = JVal.str "" ∧
    r.next_steps = JVal.arr [] ∧
    ((r.auto_approve = JVal.bool true ∧ r.final_decision = JVal.str "APPROVE") ∨
      (r.auto_approve = JVal.bool false ∧ r.final_decision = JVal.str "COMMENT")) := by
  obtain ⟨-, -, -, -, -, ha, hfd, hsum, hov, hcg, hcb, him, hop, hin, hra, hns, -⟩ :=
    run_review_spec owner repo pr_number loads state final_response r h
  have htl : techLeadParsed loads state final_response =
      fallbackPayload ((state "tech_lead_synthesis").getD final_response) := by
    rw [techLeadParsed, hfb]
  refine ⟨?_, ?_, ?_, ?_, ?_, ?_, ?_, ?_, ?_, ?_⟩
  · rw [hsum, htl]; rfl
  · rw [hov, htl]; rfl
  · rw [hcg, htl]; rfl
  · rw [hcb, htl]; rfl
  · rw [him, htl]; rfl
  · rw [hop, htl]; rfl
  · rw [hin, htl]; rfl
  · rw [hra, htl]; rfl
  · rw [hns, htl]; rfl
  · by_cases hc : totalFindings owner repo pr_number loads state = 0 ∧
        statusOfRun loads state = "all_success"
    · exact Or.inl ⟨by rw [ha, if_pos hc], by rw [hfd, if_pos hc]⟩
    · refine Or.inr ⟨?_, ?_⟩
      · rw [ha, if_neg hc, htl]; rfl
      · rw [hfd, if_neg hc, htl]; rfl

/-- Witness for the amended C6, at the run over c6state. -/
theorem c6_synthesis_defaults_witness :
    c6report.summary = JVal.str ((c6state "tech_lead_synthesis").getD "") ∧
    c6report.overall_score = JVal.num 0 ∧
    c6report.congratulations_message =
      JVal.str "🎉 Great work! This PR looks clean and well-structured. Keep it up! 🚀✨" ∧
    c6report.critical_blockers = JVal.arr [] ∧
    c6report.important_improvements = JVal.arr [] ∧
    c6report.optional_suggestions = JVal.arr [] ∧
    c6report.inline_comments = JVal.arr [] ∧
    c6report.rationale = JVal.str "" ∧
    c6report.next_steps = JVal.arr [] ∧
    ((c6report.auto_approve = JVal.bool true ∧ c6report.final_decision = JVal.str "APPROVE") ∨
      (c6report.auto_approve = JVal.bool false ∧ c6report.final_decision = JVal.str "COMMENT")) :=
  c6_synthesis_defaults "octo" "demo" 7 demoLoads c6state "" c6report rfl rfl

/-- C3 counterexample: a run in which every specialist produced output and no
extracted payload stores the JSON value false under pr_accessed — one
stores the number 0 — yet the status is partial_failure, because the
aggregator tests Python truthiness rather than the literal false. -/
theorem c3_counterexample :
    run_review "octo" "demo" 7 demoLoads c3state "" = some c3report ∧
    c3report.data_access_status = "partial_failure" ∧
    "" ∉ specialistAgents.map (agentText c3state) ∧
    specialistAgents.map
      (fun a => jget (parse_json_response demoLoads (agentText c3state a)) "pr_accessed") =
      [some (JVal.num 0), none, none, none, none] ∧
    JVal.num 0 ≠ JVal.bool false :=
  ⟨rfl, rfl, by decide, rfl, by intro hx; cases hx⟩

/-- C3 amended: the status is all_success exactly when no specialist is
counted as a data-access issue, where an issue means empty raw output or a
falsy (by Python truthiness) pr_accessed value, a missing field counting as
true; all_failed exactly when all five are issues; partial_failure in every
other case. -/
theorem c3_status_characterization (owner repo : String) (pr_number : Int)
    (loads : String → Option JDict) (state : String → Option String)
    (final_response : String) (r : Report)
    (h : run_review owner repo pr_number loads state final_response = some r) :
    (r.data_access_status = "all_success" ↔
      specialistAgents.countP (fun a => hasAccessIssue loads (agentText state a)) = 0) ∧
    (r.data_access_status = "all_failed" ↔
      specialistAgents.countP (fun a => hasAccessIssue loads (agentText state a)) =
        specialistAgents.length) ∧
    (r.data_access_status = "partial_failure" ↔
      (0 < specialistAgents.countP (fun a => hasAccessIssue loads (agentText state a)) ∧
        specialistAgents.countP (fun a => hasAccessIssue loads (agentText state a)) <
          specialistAgents.length)) := by
  obtain ⟨-, -, hds, -⟩ := run_review_spec owner repo pr_number loads state final_response r h
  have hlen : (issuesOfRun loads state).length =
      specialistAgents.countP (fun a => hasAccessIssue loads (agentText state a)) := by
    rw [issuesOfRun, flatMap_agentIssue_length]
  have h5 : specialistAgents.length = 5 := rfl
  have hle : specialistAgents.countP (fun a => hasAccessIssue loads (agentText state a)) ≤
      specialistAgents.length := List.countP_le_length _
  rw [hds, statusOfRun, hlen]
  set c := specialistAgents.countP (fun a => hasAccessIssue loads (agentText state a))
  by_cases h0 : c = 0
  · rw [if_pos h0]
    refine ⟨by simp [h0], ⟨fun hx => absurd hx (by decide), fun hx => by exfalso; omega⟩,
      ⟨fun hx => absurd hx (by decide), fun hx => by exfalso; omega⟩⟩
  · rw [if_neg h0]
    by_cases hall : c = specialistAgents.length
    · rw [if_pos hall]
      refine ⟨⟨fun hx => absurd hx (by decide), fun hx => absurd hx h0⟩, by simp [hall],
        ⟨fun hx => absurd hx (by decide), fun hx => by exfalso; omega⟩⟩
    · rw [if_neg hall]
      refine ⟨⟨fun hx => absurd hx (by decide), fun hx => absurd hx h0⟩,
        ⟨fun hx => absurd hx (by decide), fun hx => absurd hx hall⟩,
        ⟨fun _ => ⟨by omega, by omega⟩, fun _ => rfl⟩⟩

/-- Witness for the amended C3, at the run over c3state. -/
theorem c3_status_characterization_witness :
    (c3report.data_access_status = "all_success" ↔
      specialistAgents.countP (fun a => hasAccessIssue demoLoads (agentText c3state a)) = 0) ∧
    (c3report.data_access_status = "all_failed" ↔
      specialistAgents.countP (fun a => hasAccessIssue demoLoads (agentText c3state a)) =
        specialistAgents.length) ∧
    (c3report.data_access_status = "partial_failure" ↔
      (0 < specialistAgents.countP (fun a => hasAccessIssue demoLoads (agentText c3state a)) ∧
        specialistAgents.countP (fun a => hasAccessIssue demoLoads (agentText c3state a)) <
          specialistAgents.length)) :=
  c3_status_characterization "octo" "demo" 7 demoLoads c3state "" c3report rfl

/-- C9: a specialist payload lacking the pr_accessed field (as the extractor
fallback always does) is treated as pr_accessed true: no data-access issue
is recorded for that agent, its report entry carries pr_accessed true, and
the elements of its files value all reach the files_reviewed union. -/
theorem c9_missing_pr_accessed_default_true (owner repo : String) (pr_number : Int)
    (loads : String → Option JDict) (state : String → Option String)
    (final_response : String) (r : Report) (a : AgentCfg)
    (h : run_review owner repo pr_number loads state final_response = some r)
    (ha : a ∈ specialistAgents)
    (ht : agentText state a ≠ "")
    (hm : jget (parse_json_response loads (agentText state a)) "pr_accessed" = none) :
    (∀ t, jget (fallbackPayload t) "pr_accessed" = none) ∧
    agentIssue loads a.name (agentText state a) = [] ∧
    (∃ e ∈ r.specialist_reviews, e.agent = a.name ∧ e.pr_accessed = JVal.bool true) ∧
    (∀ elems, pyIter (filesOf loads (agentText state a)) = some elems →
      ∀ x ∈ elems, ∀ v, toScalar x = some v → v ∈ r.files_reviewed) := by
  obtain ⟨hentries, -, -, hmem, -, -, -, -, -, -, -, -, -, -, -, -, hsome⟩ :=
    run_review_spec owner repo pr_number loads state final_response r h
  have hpa : jgetD (parse_json_response loads (agentText state a)) "pr_accessed" (.bool true) =
      JVal.bool true := by
    rw [jgetD, hm]
    rfl
  have htr : truthy (prAccessedOf loads (agentText state a)) = true := by
    rw [prAccessedOf, hpa]
    rfl
  refine ⟨fun t => rfl, ?_, ?_, ?_⟩
  · rw [agentIssue, if_neg ht, hpa]
    rfl
  · obtain ⟨e, hae⟩ := Option.isSome_iff_exists.mp (hsome a ha ht)
    have hee : e ∈ r.specialist_reviews := by
      rw [hentries, entriesOfRun]
      exact List.mem_filterMap.mpr ⟨a, ha, hae⟩
    obtain ⟨-, hagent, hpr, -⟩ := agentEntry_some owner repo pr_number loads a _ e hae
    exact ⟨e, hee, hagent, by rw [hpr, hpa]⟩
  · intro elems helems x hx v hv
    exact (hmem v).mpr ⟨a, ha, ht, htr, elems, helems, x, hx, hv⟩

/-- Witness for C9 at the run over c9state, whose payloads are the empty
JSON object. -/
theorem c9_missing_pr_accessed_default_true_witness :
    (∀ t, jget (fallbackPayload t) "pr_accessed" = none) ∧
    agentIssue demoLoads c9agent.name (agentText c9state c9agent) = [] ∧
    (∃ e ∈ c9report.specialist_reviews, e.agent = c9agent.name ∧
      e.pr_accessed = JVal.bool true) ∧
    (∀ elems, pyIter (filesOf demoLoads (agentText c9state c9agent)) = some elems →
      ∀ x ∈ elems, ∀ v, toScalar x = some v → v ∈ c9report.files_reviewed) :=
  c9_missing_pr_accessed_default_true "octo" "demo" 7 demoLoads c9state "" c9report c9agent
    rfl (List.Mem.head _) (by decide) rfl

/-- C10: a specialist with empty raw output is only recorded as a
data-access issue: the report's entry count equals the number of agents
with nonempty output (so fewer than five entries are possible), each entry
has findings_count equal to the Python length of its findings value, the
empty-output agent's No-review-output issue string is recorded, and no
entry belongs to that agent. -/
theorem c10_empty_output_omitted (owner repo : String) (pr_number : Int)
    (loads : String → Option JDict) (state : String → Option String)
    (final_response : String) (r : Report)
    (h : run_review owner repo pr_number loads state final_response = some r) :
    r.specialist_reviews.length =
      specialistAgents.countP (fun a => !(agentText state a == "")) ∧
    (∀ e ∈ r.specialist_reviews, pyLen e.findings = some e.findings_count) ∧
    (∀ a ∈ specialistAgents, agentText state a = "" →
      (a.name ++ ": No review output") ∈ r.data_access_issues ∧
      ∀ e ∈ r.specialist_reviews, e.agent ≠ a.name) := by
  obtain ⟨hentries, hissues, -, -, -, -, -, -, -, -, -, -, -, -, -, -, hsome⟩ :=
    run_review_spec owner repo pr_number loads state final_response r h
  refine ⟨?_, ?_, ?_⟩
  · rw [hentries, entriesOfRun,
      filterMap_agentEntry_length owner repo pr_number loads state specialistAgents hsome]
  · intro e hee
    rw [hentries, entriesOfRun] at hee
    rcases List.mem_filterMap.mp hee with ⟨a, -, hae⟩
    exact agentEntry_findings owner repo pr_number loads a _ e hae
  · intro a ha hta
    constructor
    · rw [hissues, issuesOfRun]
      refine List.mem_flatMap.mpr ⟨a, ha, ?_⟩
      rw [agentIssue, if_pos hta]
      exact List.Mem.head _
    · intro e hee heq
      rw [hentries, entriesOfRun] at hee
      rcases List.mem_filterMap.mp hee with ⟨b, hb, hbe⟩
      obtain ⟨htb, hagent, -⟩ := agentEntry_some owner repo pr_number loads b _ e hbe
      have hba : b = a :=
        List.inj_on_of_nodup_map specialistNames_nodup hb ha (hagent.symm.trans heq)
      rw [hba] at htb
      exact htb hta

/-- Witness for C10 at the run over c10state, where one specialist produced
no output. -/
theorem c10_empty_output_omitted_witness :
    c10report.specialist_reviews.length =
      specialistAgents.countP (fun a => !(agentText c10state a == "")) ∧
    (∀ e ∈ c10report.specialist_reviews, pyLen e.findings = some e.findings_count) ∧
    (∀ a ∈ specialistAgents, agentText c10state a = "" →
      (a.name ++ ": No review output") ∈ c10report.data_access_issues ∧
      ∀ e ∈ c10report.specialist_reviews, e.agent ≠ a.name) :=
  c10_empty_output_omitted "octo" "demo" 7 demoLoads c10state "" c10report rfl
